import Mathlib

/-!
# Verification of the `dgx_tools` terminal GPU dashboard engine

Shallow embedding of the dashboard core of `src/dgxtools/gpu_graph.py`:
the line-chart renderer (`GpuGraph.plot_line_chart`), the memory bar
renderer (`GpuGraph.draw_memory_chart`), the layout planner
(`GpuGraph.calculate_sizes`) and the per-tick state update of
`GpuGraph.mainloop` / `GpuGraph.redraw_windows`.

Numeric values (`float` in the source) are modelled as exact rationals;
Python's `round` (banker's rounding, round-half-to-even) is modelled
exactly. Fallible operations (Python exceptions: `AssertionError` on the
bound checks, `ZeroDivisionError`, `IndexError` on list indexing,
`ValueError` from `min([])`) are modelled with `Except`. Python list
indexing semantics (negative indices wrap once; anything further is an
`IndexError`) are modelled by `pyIdx`. Curses calls (`addstr`,
`noutrefresh`, colors) only move already-computed strings onto the
screen; the embedding keeps the computed strings/cells and omits the
terminal side effects.
-/

/-- Error taxonomy for the renderer embedding.  `rangeViolation` is the
spec's name for the `assert minimum <= series_min` / `assert maximum >=
series_max` failures (Python `AssertionError`); `zeroDivision` models
Python `ZeroDivisionError`; `indexError` models `IndexError` from list
indexing; `valueError` models `ValueError` from `min([])`/`max([])`. -/
inductive ChartErr where
  | rangeViolation
  | zeroDivision
  | indexError
  | valueError
deriving DecidableEq, Repr

/-- Python `round` on an exact rational: round half to even (banker's
rounding), as Python's `round(float)` and `'{:.0f}'` formatting do. -/
def pyRound (q : ℚ) : ℤ :=
  let n := ⌊q⌋
  let frac := q - n
  if frac < 1/2 then n
  else if 1/2 < frac then n + 1
  else if n % 2 = 0 then n else n + 1

/-- A `'{:>W.0f}SUFFIX'`-style format: right-justify the rounded value in
`width` columns, then append the literal `suffix` (`" "` for the default
format of `plot_line_chart`, `"% "` for the dashboard's own format). -/
structure Fmt where
  width : ℕ
  suffix : String
deriving DecidableEq, Repr

/-- Python's rendering of a float under `'{:.0f}'`: round half to even;
a negative value rounding to zero renders as `"-0"`. -/
def intStr (q : ℚ) : String :=
  let n := pyRound q
  if n = 0 ∧ q < 0 then "-0" else toString n

/-- Right-justification (`'{:>W}'`): pad on the left with spaces up to
`width`; longer strings are kept whole (Python widths are minimums). -/
def padLeft (s : String) (width : ℕ) : String :=
  if s.length < width then String.mk (List.replicate (width - s.length) ' ') ++ s
  else s

/-- Apply a `Fmt` to a value, as `format.format(value)` does in
`plot_line_chart`. -/
def pyFmtF (fmt : Fmt) (q : ℚ) : String :=
  padLeft (intStr q) fmt.width ++ fmt.suffix

/-- Python list-index resolution for a list of length `len`: `0 ≤ i <
len` is direct, `-len ≤ i < 0` wraps once from the end, anything else is
an `IndexError` (`none`). -/
def pyIdx (len : ℕ) (i : ℤ) : Option ℕ :=
  if 0 ≤ i ∧ i < (len : ℤ) then some i.toNat
  else if -(len : ℤ) ≤ i ∧ i < 0 then some (len - (-i).toNat)
  else none

/-- Python `row[x] = c` on a list of characters. -/
def pySetRow (row : List Char) (x : ℤ) (c : Char) : Except ChartErr (List Char) :=
  match pyIdx row.length x with
  | some k => .ok (row.set k c)
  | none => .error .indexError

/-- Python `grid[y][x] = c` on a list of rows (`series_plots[y][i] = g`
in `plot_line_chart`): resolve `y` against the outer list, then `x`
against that row. -/
def pySetGrid (grid : List (List Char)) (y : ℤ) (x : ℤ) (c : Char) :
    Except ChartErr (List (List Char)) :=
  match pyIdx grid.length y with
  | some k =>
    match grid[k]? with
    | some row => (pySetRow row x c).map (grid.set k ·)
    | none => .error .indexError
  | none => .error .indexError

/-- `get_row` of `plot_line_chart` (src/dgxtools/gpu_graph.py:454-459):
`int((height - 1) - round(float(val) / float(ratio)))`.  Note the source
divides `val` itself — not `val - minimum` — by `ratio`.  Callers must
guard `ratio ≠ 0` (Python raises `ZeroDivisionError` there). -/
def get_row (val : ℚ) (height : ℤ) (ratio : ℚ) : ℤ :=
  (height - 1) - pyRound (val / ratio)

/-- Python `range(s, e, -1)`: the integers `s, s-1, ..., e+1`. -/
def rangeDown (s e : ℤ) : List ℤ :=
  (List.range (s - e).toNat).map (fun k => s - k)

/-- The y-axis label loop of `plot_line_chart` (lines 464-475): one
label row per `y_pos in range(height)`, with the crossing glyph at the
bottom row and at `get_row(series[0], ...)` and a plain tick elsewhere.
Python's `or` short-circuits: `get_row` (and hence the division by
`ratio`) is evaluated only when `y_pos != height - 1`. -/
def chartLabels (s0 : ℚ) (height : ℕ) (maximum ratio : ℚ) (fmt : Fmt) :
    Except ChartErr (List String) :=
  (List.range height).mapM (fun (y_pos : ℕ) =>
    let row := pyFmtF fmt (maximum - ratio * (y_pos : ℚ))
    if y_pos = height - 1 then .ok (row ++ "┼")
    else if ratio = 0 then .error .zeroDivision
    else if (y_pos : ℤ) = get_row s0 (height : ℤ) ratio then .ok (row ++ "┼")
    else .ok (row ++ "┤"))

/-- The plotting loop of `plot_line_chart` (lines 477-498) over the
consecutive pairs `zip(series[:-1], series[1:])` (equivalently
`zip(series, series[1:])`), mutating the `height × len(series)` grid of
spaces.  `get_row` divides by `ratio`, so a zero `ratio` raises before
any indexing in an iteration. -/
def chartPlots (series : List ℚ) (height : ℕ) (ratio : ℚ) :
    Except ChartErr (List (List Char)) :=
  let init : List (List Char) :=
    List.replicate height (List.replicate series.length ' ')
  ((series.zip series.tail).enum).foldlM (fun grid p =>
    let i : ℤ := (p.1 : ℤ)
    let prev_val := p.2.1
    let curr_val := p.2.2
    if ratio = 0 then .error .zeroDivision
    else
      let y_prev := get_row prev_val (height : ℤ) ratio
      let y_curr := get_row curr_val (height : ℤ) ratio
      if y_prev = y_curr then pySetGrid grid y_curr i '─'
      else do
        let grid ← (rangeDown (max y_prev y_curr - 1) (min y_prev y_curr)).foldlM
          (fun g y => pySetGrid g y i '│') grid
        let grid ← pySetGrid grid y_prev i (if y_prev < y_curr then '╮' else '╯')
        pySetGrid grid y_curr i (if y_prev < y_curr then '╰' else '╭')) init

/-- `GpuGraph.plot_line_chart` (src/dgxtools/gpu_graph.py:414-502).

* `min(series)` on an empty list raises `ValueError`.
* A supplied bound that does not bound the series fails the `assert`
  (spec: `RangeViolation`).
* The default format `'{:>%d.0f} ' % len(str(maximum))` is modelled for
  integer-valued maxima (the only default-format uses in this
  development) as width `len(str(numerator))`, suffix `" "`.
* `ratio = interval / (height - 1)` raises `ZeroDivisionError` exactly
  when `height = 1`.
* The final output is `label + ''.join(plot)` row by row. -/
def plot_line_chart (series : List ℚ) (height : ℕ)
    (minimum? maximum? : Option ℚ) (fmt? : Option Fmt) :
    Except ChartErr (List String) :=
  match series with
  | [] => .error .valueError
  | s0 :: rest =>
    let series_min := rest.foldl min s0
    let series_max := rest.foldl max s0
    let minimum := minimum?.getD series_min
    let maximum := maximum?.getD series_max
    if minimum? ≠ none ∧ series_min < minimum then .error .rangeViolation
    else if maximum? ≠ none ∧ maximum < series_max then .error .rangeViolation
    else
      let fmt := fmt?.getD { width := (toString maximum.num).length, suffix := " " }
      let interval := |maximum - minimum|
      if height = 1 then .error .zeroDivision
      else
        let ratio := interval / ((height : ℚ) - 1)
        (chartLabels s0 height maximum ratio fmt).bind (fun labels =>
          (chartPlots series height ratio).bind (fun plots =>
            .ok (List.zipWith (fun label plot => label ++ String.mk plot) labels plots)))

/-! ## Memory bar chart (`GpuGraph.draw_memory_chart`, lines 265-329) -/

/-- One drawn row of the memory bar column.  The drawing loop writes a
whole `width`-wide row at a time (`'█' * w`, `'▄' * w`, `'_' * w`), so a
row is one of: left blank (cleared to spaces), a full-block row, a
half-block row, or the `'_'` row drawn when `gpu_usage == 0`. -/
inductive BarCell where
  | blank
  | full
  | half
  | emptyGlyph
deriving DecidableEq, Repr

/-- The bar-drawing loop `for i in range(h - 3, -1, -1)` of
`draw_memory_chart` (lines 311-327), bottom row first.  `rowsLeft` is
the number of loop iterations remaining (`h - 2` at the start); when
`gpu_usage == 0` the loop draws one `'_'` row and breaks; when both
counters are spent it breaks; otherwise it draws a full row (decrementing
`full_rows`) or, once `full_rows` is spent, the single half row.  Rows
the loop never reaches keep the blanks written by the clearing loop. -/
def barRows : ℕ → ℤ → Bool → Bool → List BarCell
  | 0, _, _, _ => []
  | n + 1, full_rows, half_row, usage_zero =>
    if usage_zero then BarCell.emptyGlyph :: List.replicate n BarCell.blank
    else if full_rows = 0 ∧ half_row = false then List.replicate (n + 1) BarCell.blank
    else if full_rows ≠ 0 then BarCell.full :: barRows n (full_rows - 1) half_row usage_zero
    else BarCell.half :: barRows n full_rows false usage_zero

/-- `GpuGraph.draw_memory_chart`, restricted to the bar column it draws.
`h`/`w` are the derived window's `getmaxyx` (`h = nlines - 2`, `w = 5`).
`blocks = floor(gpu_usage / gpu_total * (h + h - 2))` (a zero
`gpu_total` raises `ZeroDivisionError`); `full_rows = floor(blocks / 2)`
(Python floor division, `Int.fdiv`); `half_row` iff `blocks` is odd
(Python `%`, i.e. `Int.emod`).  The result lists the bar rows bottom-up
(loop order, row `h-3` first); the centered `gpu_usage` label at row
`h-2` and the color attributes are terminal concerns left out. -/
def draw_memory_chart (gpu_usage gpu_total : ℚ) (h w : ℕ) :
    Except ChartErr (List BarCell) :=
  if gpu_total = 0 then .error .zeroDivision
  else
    let blocks : ℤ := ⌊gpu_usage / gpu_total * ((h : ℚ) + (h : ℚ) - 2)⌋
    let full_rows : ℤ := blocks.fdiv 2
    let half_row : Bool := decide (¬ blocks.emod 2 = 0)
    .ok (barRows (h - 2) full_rows half_row (decide (gpu_usage = 0)))

/-- Half-block units actually drawn in a bar column: a full row is two
units, a half row one. -/
def halfUnits (l : List BarCell) : ℕ :=
  l.foldl (fun acc c => acc + match c with
    | BarCell.full => 2
    | BarCell.half => 1
    | _ => 0) 0

/-! ## Layout planner (`GpuGraph.calculate_sizes`, lines 331-412) -/

/-- One pane rectangle as returned by `calculate_sizes`: the dict
`{'nlines', 'ncols', 'begin_y', 'begin_x'}` handed to `curses.newwin`. -/
structure Pane where
  nlines : ℕ
  ncols : ℕ
  begin_y : ℕ
  begin_x : ℕ
deriving DecidableEq, Repr

/-- Result of `calculate_sizes`: either the window is too small
(`self.sizes = -1`) or a list of pane rectangles. -/
inductive LayoutResult where
  | infeasible
  | panes (ps : List Pane)
deriving DecidableEq, Repr

/-- The grid-shape `while partitions < self.num_gpus` loop of
`calculate_sizes` (lines 357-388).  `h`/`w` are the adjusted screen
dimensions; state is `(rows, columns)` starting at `(1, 1)`.
The `diff_height_width < max_edge / 5` comparison (exact float compare
of an integer with `max_edge / 5`) is the exact rational comparison
`5 * diff < max_edge`.  In the tie-break branch, when
`remain_row = remain_col > 0` no branch fires: the Python loop repeats
the same state forever, which the embedding reports as `none` by fuel
exhaustion.  A productive iteration grows `rows * columns` by at least
one, so `num_gpus + 1` units of fuel distinguish termination from that
divergence exactly. -/
def gridLoop (n h w : ℕ) : ℕ → ℕ → ℕ → Option (ℕ × ℕ)
  | 0, _, _ => none
  | fuel + 1, rows, columns =>
    if n ≤ rows * columns then some (rows, columns)
    else
      let cut_height := h / rows
      let cut_width := w / columns
      let diff_height_width := max cut_width cut_height - min cut_width cut_height
      let max_edge := max cut_width cut_height
      if 5 * diff_height_width < max_edge then
        let remain_col : ℤ := (rows * (columns + 1) : ℕ) - (n : ℤ)
        let remain_row : ℤ := ((rows + 1) * columns : ℕ) - (n : ℤ)
        if remain_row ≤ 0 then gridLoop n h w fuel (rows + 1) columns
        else if remain_col ≤ 0 then gridLoop n h w fuel rows (columns + 1)
        else if remain_row < remain_col then gridLoop n h w fuel (rows + 1) columns
        else if remain_col < remain_row then gridLoop n h w fuel rows (columns + 1)
        else gridLoop n h w fuel rows columns
      else
        if cut_height < cut_width then gridLoop n h w fuel rows (columns + 1)
        else gridLoop n h w fuel (rows + 1) columns

/-- `GpuGraph.calculate_sizes` for a `lines × cols` screen and
`num_gpus` panes.  `w -= 1; h -= 2`; grid shape from `gridLoop`; pane
size `floor(dim / gridDim) - 1`; minimums 10 lines / 18 columns,
violation giving `infeasible` (`self.sizes = -1`); panes laid out
row-major (`col = i % columns`, `row = i // columns`) with a one-cell
offset for every index past the first row/column.  Natural-number
subtraction truncates where Python would go negative (tiny terminals);
in every such case both give `infeasible`.  `none` is the divergence of
the shape loop (see `gridLoop`). -/
def calculate_sizes (lines cols num_gpus : ℕ) : Option LayoutResult :=
  let w := cols - 1
  let h := lines - 2
  match gridLoop num_gpus h w (num_gpus + 1) 1 1 with
  | none => none
  | some (rows, columns) =>
    let width := w / columns - 1
    let height := h / rows - 1
    if width < 18 ∨ height < 10 then some LayoutResult.infeasible
    else some (LayoutResult.panes ((List.range num_gpus).map (fun i =>
      let col := i % columns
      let row := i / columns
      let x_pad := if 0 < col then 1 else 0
      let y_pad := if 0 < row then 1 else 0
      { nlines := height, ncols := width,
        begin_y := row * height + y_pad, begin_x := col * width + x_pad })))

/-- Two pane rectangles `[begin_y, begin_y + nlines) × [begin_x,
begin_x + ncols)` occupy disjoint screen cells. -/
def paneDisjoint (p q : Pane) : Prop :=
  p.begin_x + p.ncols ≤ q.begin_x ∨ q.begin_x + q.ncols ≤ p.begin_x ∨
  p.begin_y + p.nlines ≤ q.begin_y ∨ q.begin_y + q.nlines ≤ p.begin_y

/-! ## Dashboard session state and the per-tick update
(`GpuGraph.mainloop` lines 131-142, `GpuGraph.redraw_windows` lines
202-223) -/

/-- One entry of the `get_gpus()` snapshot: the dict with keys `load`,
`memory_total`, `memory_used`, `name`. -/
structure GpuSample where
  load : ℚ
  memory_total : ℚ
  memory_used : ℚ
  name : String
deriving DecidableEq, Repr

/-- One entry of `self.mem_utilizations`: the dict with keys
`gpu_total`, `gpu_usage`. -/
structure MemInfo where
  gpu_total : ℚ
  gpu_usage : ℚ
deriving DecidableEq, Repr

/-- The mutable per-session state the tick loop reads and writes:
`self.num_gpus`, `self.val_utilizations`, `self.mem_utilizations`, and
`self.sizes` (the pane rectangles from the last successful
`calculate_sizes`, read by `draw_utilization_plot` to size the plot
window; never written by the tick). -/
structure SessionState where
  num_gpus : ℕ
  val_utilizations : List (List ℚ)
  mem_utilizations : List MemInfo
  sizes : List Pane
deriving DecidableEq, Repr

/-- The tick loop can only fail with Python `IndexError` (indexing
`self.gpus[i]`, `self.val_utilizations[i]`, `self.mem_utilizations[i]`
or `self.sizes[i]` out of range). -/
inductive TickErr where
  | indexError
deriving DecidableEq, Repr

/-- The in-tick FIFO eviction performed by `draw_utilization_plot`
(src/dgxtools/gpu_graph.py:230-236): the plot's derived window is
`(nlines - 4) × (ncols - 9)`, so its `getmaxyx` width is `w = ncols -
9`, and the history loses its oldest entry (`pop(0)`) when `len > w - 7
= ncols - 16`.  At the point of the check the history has just been
appended to, hence is non-empty, so `pop(0)` is `List.tail` and the
natural-number subtraction in the capacity agrees with Python's signed
arithmetic on the pop condition. -/
def draw_utilization_pop (ncols : ℕ) (hist : List ℚ) : List ℚ :=
  if ncols - 16 < hist.length then hist.tail else hist

/-- The body of `for i in range(self.num_gpus)` in `mainloop` (lines
133-140), iterated over an explicit index list: append
`gpus[i]['load'] * 100` to `val_utilizations[i]`, overwrite
`mem_utilizations[i]['gpu_usage']` with `gpus[i]['memory_used']`, then
`draw_utilization_plot(i)` reads `self.sizes[i]` and pops the oldest
history entry when the appended history exceeds the pane's capacity
`ncols - 16` (`draw_utilization_pop`).  The rest of the two draw calls
only renders the updated state: `plot_line_chart` is invoked on the
popped history with bounds 0/100 (which utilization samples satisfy)
and its output goes to the curses window, as does `draw_memory_chart`'s
bar — neither writes session state.  (`self.windows[i]` is a curses
object read we do not model; a failed read mid-iteration aborts the
whole tick in Python, and this embedding likewise reports the tick as
the error.) -/
def tickGo (gpus : List GpuSample) : List ℕ → SessionState → Except TickErr SessionState
  | [], st => .ok st
  | i :: restIdx, st =>
    match gpus[i]? with
    | none => .error .indexError
    | some g =>
      match st.val_utilizations[i]? with
      | none => .error .indexError
      | some hist =>
        match st.mem_utilizations[i]? with
        | none => .error .indexError
        | some mem =>
          match st.sizes[i]? with
          | none => .error .indexError
          | some size =>
            tickGo gpus restIdx
              { st with
                val_utilizations := st.val_utilizations.set i
                  (draw_utilization_pop size.ncols (hist ++ [g.load * 100])),
                mem_utilizations := st.mem_utilizations.set i
                  { mem with gpu_usage := g.memory_used } }

/-- The state update of one `mainloop` tick (lines 131-142) applied to a
fresh `get_gpus()` snapshot. -/
def tickUpdate (st : SessionState) (gpus : List GpuSample) : Except TickErr SessionState :=
  tickGo gpus (List.range st.num_gpus) st

/-- The `val_utilizations` rebuilt by `GpuGraph.redraw_windows` (lines
202-223): for every pane it appends the two-entry placeholder `[0, 0]`
(`val_utilizations.append([0, 0])`); the windows themselves are curses
objects outside the state model. -/
def redraw_windows_vals (sizes : List Pane) : List (List ℚ) :=
  sizes.map (fun _ => [0, 0])

/-- The row-placement formula as the specification states it (spec
§4.2): `row = round((height-1) - (v-minimum)/ratio)`.  Stated for
comparison with the source's `get_row`, which divides `val` itself by
`ratio` instead of `val - minimum`. -/
def specRow (v minimum : ℚ) (height : ℕ) (ratio : ℚ) : ℤ :=
  pyRound (((height : ℚ) - 1) - (v - minimum) / ratio)

/-- All strings in the list have one common length (`true` on `[]`). -/
def allSameLength : List String → Bool
  | [] => true
  | s :: rest => rest.all (fun t => t.length == s.length)

/-! ## Generic lemmas about the `Except` loops -/

theorem except_bind_ok {ε α β : Type} {x : Except ε α} {f : α → Except ε β} {b : β} :
    (x >>= f) = .ok b ↔ ∃ a, x = .ok a ∧ f a = .ok b := by
  cases x <;> simp [Bind.bind, Except.bind]

theorem except_pure_ok {ε α : Type} {a b : α} :
    (pure a : Except ε α) = .ok b ↔ a = b := by
  constructor
  · intro h
    cases h
    rfl
  · intro h
    cases h
    rfl

theorem mapM_ok_length {ε α β : Type} (f : α → Except ε β) :
    ∀ (l : List α) (res : List β), l.mapM f = .ok res → res.length = l.length := by
  intro l
  induction l with
  | nil =>
    intro res h
    rw [List.mapM_nil, except_pure_ok] at h
    simp [← h]
  | cons a t ih =>
    intro res h
    rw [List.mapM_cons] at h
    obtain ⟨b, _, h2⟩ := except_bind_ok.mp h
    obtain ⟨bs, hbs, h3⟩ := except_bind_ok.mp h2
    rw [except_pure_ok] at h3
    subst h3
    simp [ih bs hbs]

theorem mapM_ok_mem {ε α β : Type} (f : α → Except ε β) :
    ∀ (l : List α) (res : List β), l.mapM f = .ok res →
      ∀ b ∈ res, ∃ a ∈ l, f a = .ok b := by
  intro l
  induction l with
  | nil =>
    intro res h
    rw [List.mapM_nil, except_pure_ok] at h
    subst h
    simp
  | cons a t ih =>
    intro res h
    rw [List.mapM_cons] at h
    obtain ⟨b, hb, h2⟩ := except_bind_ok.mp h
    obtain ⟨bs, hbs, h3⟩ := except_bind_ok.mp h2
    rw [except_pure_ok] at h3
    subst h3
    intro c hc
    rcases List.mem_cons.mp hc with hc | hc
    · exact ⟨a, List.mem_cons_self a t, hc ▸ hb⟩
    · obtain ⟨a', ha', hfa'⟩ := ih bs hbs c hc
      exact ⟨a', List.mem_cons_of_mem a ha', hfa'⟩

theorem foldlM_ok_inv {ε σ α : Type} (P : σ → Prop) (step : σ → α → Except ε σ)
    (hstep : ∀ s a s', P s → step s a = .ok s' → P s') :
    ∀ (l : List α) (s s' : σ), P s → l.foldlM step s = .ok s' → P s' := by
  intro l
  induction l with
  | nil =>
    intro s s' hs h
    rw [List.foldlM_nil, except_pure_ok] at h
    exact h ▸ hs
  | cons a t ih =>
    intro s s' hs h
    rw [List.foldlM_cons] at h
    obtain ⟨s₁, h1, h2⟩ := except_bind_ok.mp h
    exact ih s₁ s' (hstep s a s₁ hs h1) h2

theorem zipWith_mem {α β γ : Type} (f : α → β → γ) :
    ∀ (l₁ : List α) (l₂ : List β), ∀ c ∈ List.zipWith f l₁ l₂,
      ∃ a ∈ l₁, ∃ b ∈ l₂, c = f a b := by
  intro l₁
  induction l₁ with
  | nil => simp
  | cons a t ih =>
    intro l₂ c hc
    cases l₂ with
    | nil => simp at hc
    | cons b t₂ =>
      rcases List.mem_cons.mp hc with hc | hc
      · exact ⟨a, List.mem_cons_self _ _, b, List.mem_cons_self _ _, hc⟩
      · obtain ⟨a', ha', b', hb', hc'⟩ := ih t₂ c hc
        exact ⟨a', List.mem_cons_of_mem _ ha', b', List.mem_cons_of_mem _ hb', hc'⟩

theorem allSameLength_of_const {l : List String} {c : ℕ}
    (h : ∀ s ∈ l, s.length = c) : allSameLength l = true := by
  cases l with
  | nil => rfl
  | cons s rest =>
    simp only [allSameLength, List.all_eq_true]
    intro t ht
    rw [h t (List.mem_cons_of_mem s ht), h s (List.mem_cons_self s rest)]
    exact beq_self_eq_true c

/-! ## Lemmas about the memory bar loop -/

theorem barRows_blank (n : ℕ) : barRows n 0 false false = List.replicate n BarCell.blank := by
  cases n with
  | zero => rfl
  | succ m => simp [barRows]

/-- When usage is positive and the computed rows fit in the column, the
bar is exactly `full_rows` full rows, then the half row iff requested,
then blanks — bottom-up. -/
theorem barRows_succ_half (n : ℕ) :
    barRows (n + 1) 0 true false = BarCell.half :: barRows n 0 false false := by
  simp [barRows]

theorem barRows_succ_full (n : ℕ) (fr : ℤ) (hr : Bool) (h : fr ≠ 0) :
    barRows (n + 1) fr hr false = BarCell.full :: barRows n (fr - 1) hr false := by
  simp [barRows, h]

theorem barRows_spec :
    ∀ (n : ℕ) (fr : ℤ) (hr : Bool), 0 ≤ fr →
      fr.toNat + (if hr then 1 else 0) ≤ n →
      barRows n fr hr false =
        List.replicate fr.toNat BarCell.full ++
        (if hr then [BarCell.half] else []) ++
        List.replicate (n - fr.toNat - (if hr then 1 else 0)) BarCell.blank := by
  intro n
  induction n with
  | zero =>
    intro fr hr h0 hle
    have hfr : fr.toNat = 0 := by omega
    have hhr : hr = false := by
      cases hr
      · rfl
      · simp at hle
    subst hhr
    simp [barRows, hfr]
  | succ m ih =>
    intro fr hr h0 hle
    by_cases hfr : fr = 0
    · subst hfr
      cases hr with
      | false => simp [barRows]
      | true =>
        rw [barRows_succ_half, barRows_blank]
        simp
    · have h1 : 1 ≤ fr := by omega
      rw [barRows_succ_full m fr hr hfr, ih (fr - 1) hr (by omega) (by omega)]
      have e1 : fr.toNat = (fr - 1).toNat + 1 := by omega
      have e2 : m - (fr - 1).toNat - (if hr then 1 else 0) =
          m + 1 - fr.toNat - (if hr then 1 else 0) := by
        cases hr <;> simp <;> omega
      rw [e2, e1]
      simp [List.replicate_succ]

/-! ## Lemmas about the layout loop -/

/-- Whatever grid shape the `while` loop settles on has positive factors
and at least `num_gpus` cells. -/
theorem gridLoop_spec (n h w : ℕ) :
    ∀ (fuel rows columns R C : ℕ), 0 < rows → 0 < columns →
      gridLoop n h w fuel rows columns = some (R, C) →
      0 < R ∧ 0 < C ∧ n ≤ R * C := by
  intro fuel
  induction fuel with
  | zero =>
    intro rows columns R C _ _ hres
    exact absurd hres (by simp [gridLoop])
  | succ f ih =>
    intro rows columns R C hr hc hres
    simp only [gridLoop] at hres
    split at hres
    · rename_i hle
      cases hres
      exact ⟨hr, hc, hle⟩
    · split at hres
      · split at hres
        · exact ih _ _ _ _ (by omega) hc hres
        · split at hres
          · exact ih _ _ _ _ hr (by omega) hres
          · split at hres
            · exact ih _ _ _ _ (by omega) hc hres
            · split at hres
              · exact ih _ _ _ _ hr (by omega) hres
              · exact ih _ _ _ _ hr hc hres
      · split at hres
        · exact ih _ _ _ _ hr (by omega) hres
        · exact ih _ _ _ _ (by omega) hc hres

/-! ## Lemmas about the tick loop -/

/-- If the index list reaches any position at or past the end of the
snapshot, the tick loop raises `IndexError` — there is no guard or
fallback in `mainloop`.  (Every failure path of the loop is an
`IndexError`, so the result is that error no matter which read fails
first.) -/
theorem tickGo_err (gpus : List GpuSample) :
    ∀ (L : List ℕ) (st : SessionState), (∃ i ∈ L, gpus.length ≤ i) →
      tickGo gpus L st = .error .indexError := by
  intro L
  induction L with
  | nil =>
    intro st h
    simp at h
  | cons i restIdx ih =>
    intro st h
    obtain ⟨j, hj, hlen⟩ := h
    cases hgi : gpus[i]? with
    | none => simp [tickGo, hgi]
    | some g =>
      have hi : i < gpus.length := by
        by_contra hcon
        rw [List.getElem?_eq_none (by omega)] at hgi
        cases hgi
      have hjrest : j ∈ restIdx := by
        rcases List.mem_cons.mp hj with hj | hj
        · omega
        · exact hj
      cases hv : st.val_utilizations[i]? with
      | none => simp [tickGo, hgi, hv]
      | some hist =>
        cases hm : st.mem_utilizations[i]? with
        | none => simp [tickGo, hgi, hv, hm]
        | some mem =>
          cases hs : st.sizes[i]? with
          | none => simp [tickGo, hgi, hv, hm, hs]
          | some size =>
            simp only [tickGo, hgi, hv, hm, hs]
            exact ih _ ⟨j, hjrest, hlen⟩

/-- Full characterization of a successful run of the tick loop over the
contiguous index range `[a, a+k)`: it succeeds whenever the snapshot and
the three state lists cover the range; each covered history gets
`load * 100` appended and is then trimmed by the in-tick FIFO eviction
for its pane width, each covered `gpu_usage` is overwritten, and
everything else (including `sizes`) is unchanged. -/
theorem tickGo_range' (gpus : List GpuSample) :
    ∀ (k a : ℕ) (st : SessionState),
      a + k ≤ gpus.length →
      a + k ≤ st.val_utilizations.length →
      a + k ≤ st.mem_utilizations.length →
      a + k ≤ st.sizes.length →
      ∃ st', tickGo gpus (List.range' a k) st = .ok st' ∧
        st'.num_gpus = st.num_gpus ∧
        st'.val_utilizations.length = st.val_utilizations.length ∧
        st'.mem_utilizations.length = st.mem_utilizations.length ∧
        st'.sizes = st.sizes ∧
        (∀ j : ℕ, st'.val_utilizations[j]? =
          if a ≤ j ∧ j < a + k then
            (st.val_utilizations[j]?).bind (fun hist =>
              (gpus[j]?).bind (fun g =>
                (st.sizes[j]?).map (fun size =>
                  draw_utilization_pop size.ncols (hist ++ [g.load * 100]))))
          else st.val_utilizations[j]?) ∧
        (∀ j : ℕ, st'.mem_utilizations[j]? =
          if a ≤ j ∧ j < a + k then
            (st.mem_utilizations[j]?).bind (fun mem =>
              (gpus[j]?).map (fun g => { mem with gpu_usage := g.memory_used }))
          else st.mem_utilizations[j]?) := by
  intro k
  induction k with
  | zero =>
    intro a st _ _ _ _
    refine ⟨st, by simp [tickGo], rfl, rfl, rfl, rfl, ?_, ?_⟩ <;>
    · intro j
      rw [if_neg (by omega)]
  | succ k ih =>
    intro a st hg hv hm hsz
    have ha : a < gpus.length := by omega
    have hav : a < st.val_utilizations.length := by omega
    have ham : a < st.mem_utilizations.length := by omega
    have hasz : a < st.sizes.length := by omega
    have hga : gpus[a]? = some gpus[a] := List.getElem?_eq_getElem ha
    have hva : st.val_utilizations[a]? = some st.val_utilizations[a] :=
      List.getElem?_eq_getElem hav
    have hma : st.mem_utilizations[a]? = some st.mem_utilizations[a] :=
      List.getElem?_eq_getElem ham
    have hsa : st.sizes[a]? = some st.sizes[a] := List.getElem?_eq_getElem hasz
    set st₁ : SessionState :=
      { st with
        val_utilizations := st.val_utilizations.set a
          (draw_utilization_pop (st.sizes[a]).ncols
            (st.val_utilizations[a] ++ [(gpus[a]).load * 100])),
        mem_utilizations := st.mem_utilizations.set a
          { st.mem_utilizations[a] with gpu_usage := (gpus[a]).memory_used } } with hst₁
    obtain ⟨st', hrun, hn, hlv, hlm, hlsz, hvals, hmems⟩ :=
      ih (a + 1) st₁ (by omega) (by simp [hst₁]; omega) (by simp [hst₁]; omega)
        (by simp [hst₁]; omega)
    have hsz₁ : st₁.sizes = st.sizes := by simp [hst₁]
    refine ⟨st', ?_, hn, by simpa [hst₁] using hlv, by simpa [hst₁] using hlm,
      by rw [hlsz, hsz₁], ?_, ?_⟩
    · rw [List.range'_succ]
      simp only [tickGo, hga, hva, hma, hsa]
      exact hrun
    · intro j
      rcases eq_or_ne j a with hja | hja
      · subst hja
        have h1 := hvals j
        rw [if_neg (by omega)] at h1
        rw [h1]
        rw [if_pos (by omega)]
        have : st₁.val_utilizations[j]? =
            some (draw_utilization_pop (st.sizes[j]).ncols
              (st.val_utilizations[j] ++ [(gpus[j]).load * 100])) := by
          simp only [hst₁]
          exact List.getElem?_set_self hav
        rw [this, hva, hga, hsa]
        rfl
      · have h1 := hvals j
        have hs : st₁.val_utilizations[j]? = st.val_utilizations[j]? := by
          simp only [hst₁]
          exact List.getElem?_set_ne (by omega)
        by_cases hcond : a ≤ j ∧ j < a + (k + 1)
        · rw [if_pos hcond]
          rw [if_pos (by omega)] at h1
          rw [h1, hs, hsz₁]
        · rw [if_neg hcond]
          rw [if_neg (by omega)] at h1
          rw [h1, hs]
    · intro j
      rcases eq_or_ne j a with hja | hja
      · subst hja
        have h1 := hmems j
        rw [if_neg (by omega)] at h1
        rw [h1]
        rw [if_pos (by omega)]
        have : st₁.mem_utilizations[j]? =
            some { st.mem_utilizations[j] with gpu_usage := (gpus[j]).memory_used } := by
          simp only [hst₁]
          exact List.getElem?_set_self ham
        rw [this, hma, hga]
        rfl
      · have h1 := hmems j
        have hs : st₁.mem_utilizations[j]? = st.mem_utilizations[j]? := by
          simp only [hst₁]
          exact List.getElem?_set_ne (by omega)
        by_cases hcond : a ≤ j ∧ j < a + (k + 1)
        · rw [if_pos hcond]
          rw [if_pos (by omega)] at h1
          rw [h1, hs]
        · rw [if_neg hcond]
          rw [if_neg (by omega)] at h1
          rw [h1, hs]

/-! ## Shape lemmas for the chart renderer -/

theorem pyIdx_lt {len : ℕ} {i : ℤ} {k : ℕ} (h : pyIdx len i = some k) : k < len := by
  unfold pyIdx at h
  split at h
  · rename_i hi
    cases h
    omega
  · split at h
    · rename_i hi
      cases h
      omega
    · exact absurd h (by simp)

theorem pySetRow_length {row : List Char} {x : ℤ} {c : Char} {row' : List Char}
    (h : pySetRow row x c = .ok row') : row'.length = row.length := by
  unfold pySetRow at h
  split at h
  · cases h
    simp
  · exact absurd h (by simp)

/-- `pySetGrid` preserves the grid shape: the number of rows and the
common row length. -/
theorem pySetGrid_shape {grid : List (List Char)} {y x : ℤ} {c : Char}
    {grid' : List (List Char)} {n : ℕ}
    (hrows : ∀ r ∈ grid, r.length = n)
    (h : pySetGrid grid y x c = .ok grid') :
    grid'.length = grid.length ∧ ∀ r ∈ grid', r.length = n := by
  unfold pySetGrid at h
  split at h
  · rename_i k hk
    split at h
    · rename_i row hrow
      cases hres : pySetRow row x c with
      | error e => rw [hres] at h; exact absurd h (by simp [Except.map])
      | ok row' =>
        rw [hres] at h
        simp only [Except.map] at h
        cases h
        constructor
        · simp
        · intro r hr
          rcases List.mem_or_eq_of_mem_set hr with hr | hr
          · exact hrows r hr
          · rw [hr, pySetRow_length hres]
            exact hrows row (List.getElem?_mem hrow)
    · exact absurd h (by simp)
  · exact absurd h (by simp)

/-- On success, `chartPlots` returns `height` rows of `series.length`
characters each. -/
theorem chartPlots_shape {series : List ℚ} {height : ℕ} {ratio : ℚ}
    {plots : List (List Char)}
    (h : chartPlots series height ratio = .ok plots) :
    plots.length = height ∧ ∀ r ∈ plots, r.length = series.length := by
  unfold chartPlots at h
  have key := foldlM_ok_inv
    (fun g : List (List Char) => g.length = height ∧ ∀ r ∈ g, r.length = series.length)
    _ ?_ _ _ _ ?_ h
  · exact key
  · intro g p g' hg hstep
    simp only at hstep
    split at hstep
    · exact absurd hstep (by simp)
    · split at hstep
      · obtain ⟨h1, h2⟩ := pySetGrid_shape hg.2 hstep
        exact ⟨h1.trans hg.1, h2⟩
      · obtain ⟨g₁, hg₁, hstep₂⟩ := except_bind_ok.mp hstep
        obtain ⟨g₂, hg₂, hstep₃⟩ := except_bind_ok.mp hstep₂
        have p1 := foldlM_ok_inv
          (fun g : List (List Char) => g.length = height ∧ ∀ r ∈ g, r.length = series.length)
          _ ?_ _ _ _ hg hg₁
        · obtain ⟨q1, q2⟩ := pySetGrid_shape p1.2 hg₂
          obtain ⟨q3, q4⟩ := pySetGrid_shape q2 hstep₃
          exact ⟨q3.trans (q1.trans p1.1), q4⟩
        · intro s a s' hs hset
          obtain ⟨r1, r2⟩ := pySetGrid_shape hs.2 hset
          exact ⟨r1.trans hs.1, r2⟩
  · constructor
    · simp
    · intro r hr
      rw [List.eq_of_mem_replicate hr]
      simp

/-- On success, `chartLabels` returns `height` strings, each one format
application plus a one-character tick glyph. -/
theorem chartLabels_length {s0 : ℚ} {height : ℕ} {maximum ratio : ℚ} {fmt : Fmt}
    {labels : List String}
    (h : chartLabels s0 height maximum ratio fmt = .ok labels) :
    labels.length = height := by
  unfold chartLabels at h
  simpa using mapM_ok_length _ _ _ h

theorem chartLabels_mem {s0 : ℚ} {height : ℕ} {maximum ratio : ℚ} {fmt : Fmt}
    {labels : List String}
    (h : chartLabels s0 height maximum ratio fmt = .ok labels) :
    ∀ b ∈ labels, ∃ y < height,
      b.length = (pyFmtF fmt (maximum - ratio * (y : ℚ))).length + 1 := by
  intro b hb
  unfold chartLabels at h
  obtain ⟨y, hy, hfy⟩ := mapM_ok_mem _ _ _ h b hb
  refine ⟨y, List.mem_range.mp hy, ?_⟩
  have htick : ("┼" : String).length = 1 := rfl
  have htick' : ("┤" : String).length = 1 := rfl
  simp only at hfy
  split at hfy
  · cases hfy
    simp [String.length_append, htick]
  · split at hfy
    · exact absurd hfy (by simp)
    · split at hfy
      · cases hfy
        simp [String.length_append, htick]
      · cases hfy
        simp [String.length_append, htick']

/-! ## Claims -/

deriving instance DecidableEq for Except

set_option maxRecDepth 100000

/-- C1: The spec says `plot_line_chart` places a value `v` on row
`round((height-1) - (v-minimum)/ratio)`, so rows depend only on
`v - minimum`.  The code's `get_row` computes
`(height-1) - round(val/ratio)` — it never subtracts `minimum` — which
agrees with the spec only when `minimum = 0`.  On the documented default
bounds (`minimum = min(series)`), e.g. `series = [5, 6, 7]`, `height =
3` (ratio 1), the code computes rows `-3, -4, -5` instead of the spec's
`2, 1, 0` and crashes with `IndexError` while writing the polyline,
contradicting the function's own docstring that default bounds are
supported: the code is the bug, the spec formula the intent. -/
theorem c1_get_row_indexError :
    plot_line_chart [5, 6, 7] 3 none none none = Except.error ChartErr.indexError ∧
    (get_row 5 3 1 = -3 ∧ get_row 6 3 1 = -4 ∧ get_row 7 3 1 = -5) ∧
    (specRow 5 5 3 1 = 2 ∧ specRow 6 5 3 1 = 1 ∧ specRow 7 5 3 1 = 0) := by
  refine ⟨?_, ⟨?_, ?_, ?_⟩, ⟨?_, ?_, ?_⟩⟩ <;> with_unfolding_all decide

/-- C2 counterexample: The claim says a snapshot shorter than the
pane count lets the tick complete with the missing pane's values
retained.  With 2 panes and a 1-entry snapshot the tick raises
`IndexError` (`self.gpus[i]` at `i = 1`) instead of completing. -/
theorem c2_short_snapshot_counterexample :
    tickUpdate ⟨2, [[0, 0], [0, 0]], [⟨100, 0⟩, ⟨100, 0⟩],
      [⟨37, 38, 0, 0⟩, ⟨37, 38, 0, 39⟩]⟩ [⟨1/2, 100, 10, "A"⟩] =
      Except.error TickErr.indexError := by
  with_unfolding_all decide

/-- C2 amended: Whenever the Telemetry snapshot is shorter than
the session's pane count, the tick does not complete: the unguarded
`self.gpus[i]` read raises `IndexError` and the tick aborts (the
dashboard crashes on a short sample; missing indices are not
tolerated). -/
theorem c2_short_snapshot_crashes (st : SessionState) (gpus : List GpuSample)
    (h : gpus.length < st.num_gpus) :
    tickUpdate st gpus = Except.error TickErr.indexError := by
  unfold tickUpdate
  exact tickGo_err gpus _ st ⟨gpus.length, List.mem_range.mpr h, le_refl _⟩

theorem c2_short_snapshot_crashes_witness :
    ([⟨1/2, 100, 10, "A"⟩] : List GpuSample).length < 3 ∧
    tickUpdate ⟨3, [[], [], []], [⟨100, 0⟩, ⟨100, 0⟩, ⟨100, 0⟩],
      [⟨37, 38, 0, 0⟩, ⟨37, 38, 0, 39⟩, ⟨37, 38, 0, 77⟩]⟩ [⟨1/2, 100, 10, "A"⟩] =
      Except.error TickErr.indexError :=
  ⟨by decide,
   c2_short_snapshot_crashes ⟨3, [[], [], []], [⟨100, 0⟩, ⟨100, 0⟩, ⟨100, 0⟩],
     [⟨37, 38, 0, 0⟩, ⟨37, 38, 0, 39⟩, ⟨37, 38, 0, 77⟩]⟩
     [⟨1/2, 100, 10, "A"⟩] (by decide)⟩

/-- C4 counterexample: The claim requires a 2×2 grid for a 40×160
terminal with 4 panes.  The planner returns four panes all with
`begin_y = 0` at four distinct `begin_x` — a 1-row × 4-column grid, not
2×2: at every step of the shape loop the width/height difference is at
least 20% of the larger edge, so the wasted-cell tie-break never
fires and the edge-comparison rule keeps adding columns. -/
theorem c4_grid_counterexample :
    calculate_sizes 40 160 4 = some (LayoutResult.panes
      [⟨37, 38, 0, 0⟩, ⟨37, 38, 0, 39⟩, ⟨37, 38, 0, 77⟩, ⟨37, 38, 0, 115⟩]) ∧
    [(⟨37, 38, 0, 0⟩ : Pane), ⟨37, 38, 0, 39⟩, ⟨37, 38, 0, 77⟩,
      ⟨37, 38, 0, 115⟩].map Pane.begin_y = [0, 0, 0, 0] :=
  ⟨by decide, by decide⟩

/-- C4 amended: `calculate_sizes` on a 40-line × 160-column
terminal with 4 panes produces a 1×4 grid: the shape loop
(`gridLoop` on the adjusted dimensions `h = 38`, `w = 159`) settles on
1 row and 4 columns, and the resulting panes are laid out in a single
row of four 37×38 rectangles. -/
theorem c4_grid_one_by_four :
    gridLoop 4 38 159 5 1 1 = some (1, 4) ∧
    calculate_sizes 40 160 4 = some (LayoutResult.panes
      [⟨37, 38, 0, 0⟩, ⟨37, 38, 0, 39⟩, ⟨37, 38, 0, 77⟩, ⟨37, 38, 0, 115⟩]) :=
  ⟨by decide, by decide⟩

/-- C6 counterexample: The claim says `used = 0` fills *every*
row of the usable bar column with the `'_'` glyph.  At `used = 0`,
`total = 100`, `height = 10` the code draws `'_'` on the bottom row only
and then `break`s: the second row from the bottom is blank. -/
theorem c6_empty_counterexample :
    draw_memory_chart 0 100 10 5 =
      Except.ok (BarCell.emptyGlyph :: List.replicate 7 BarCell.blank) ∧
    (BarCell.emptyGlyph :: List.replicate 7 BarCell.blank)[1]? = some BarCell.blank :=
  ⟨by with_unfolding_all decide, by decide⟩

/-- C6 amended: With `used = 0` (and a nonzero total and a window
of at least 3 rows) the bar column gets the distinct `'_'` glyph on the
bottom row only — the loop `break`s immediately after drawing it — and
every remaining usable row stays blank. -/
theorem c6_empty_bottom_row (gpu_total : ℚ) (h w : ℕ)
    (ht : gpu_total ≠ 0) (hh : 3 ≤ h) :
    draw_memory_chart 0 gpu_total h w =
      Except.ok (BarCell.emptyGlyph :: List.replicate (h - 3) BarCell.blank) := by
  unfold draw_memory_chart
  rw [if_neg ht]
  have hz : (0 : ℚ) / gpu_total * ((h : ℚ) + (h : ℚ) - 2) = 0 := by
    rw [zero_div, zero_mul]
  rw [hz]
  obtain ⟨m, hm⟩ : ∃ m, h - 2 = m + 1 := ⟨h - 3, by omega⟩
  rw [hm]
  have hm' : m = h - 3 := by omega
  simp [barRows, hm']

theorem c6_empty_bottom_row_witness :
    (100 : ℚ) ≠ 0 ∧
    draw_memory_chart 0 100 10 5 =
      Except.ok (BarCell.emptyGlyph :: List.replicate 7 BarCell.blank) :=
  ⟨by norm_num,
   (c6_empty_bottom_row 100 10 5 (by norm_num) (by norm_num)).trans (by decide)⟩

/-- C7: Supplying a `minimum` strictly greater than the actual
series minimum makes `plot_line_chart` fail the `assert minimum <=
series_min` (the spec's `RangeViolation`) before any chart is built. -/
theorem c7_range_violation (x m : ℚ) (xs : List ℚ) (height : ℕ)
    (maximum? : Option ℚ) (fmt? : Option Fmt)
    (hlt : xs.foldl min x < m) :
    plot_line_chart (x :: xs) height (some m) maximum? fmt? =
      Except.error ChartErr.rangeViolation := by
  simp [plot_line_chart, hlt]

theorem c7_range_violation_witness :
    List.foldl min (10 : ℚ) [90] < 50 ∧
    plot_line_chart [10, 90] 5 (some 50) none none =
      Except.error ChartErr.rangeViolation :=
  ⟨by with_unfolding_all decide,
   c7_range_violation 10 50 [90] 5 none none (by with_unfolding_all decide)⟩

/-- C9 counterexample: The claim says `height = 1` is legal and
returns one label-plus-tick row per value.  The code computes `ratio =
interval / (height - 1)` and so divides by zero: `plot_line_chart([10],
height=1)` raises `ZeroDivisionError` instead of returning a row. -/
theorem c9_height_one_counterexample :
    plot_line_chart [10] 1 none none none = Except.error ChartErr.zeroDivision := by
  with_unfolding_all decide

/-- C9 amended: For every non-empty series (with default bounds,
which always satisfy the asserts), `height = 1` makes `plot_line_chart`
fail with a division-by-zero error in `ratio = interval / (height - 1)`;
it never returns a chart at that height. -/
theorem c9_height_one_zero_division (x : ℚ) (xs : List ℚ) (fmt? : Option Fmt) :
    plot_line_chart (x :: xs) 1 none none fmt? =
      Except.error ChartErr.zeroDivision := by
  simp [plot_line_chart]

/-- C3 counterexample: The claim says histories are reset to the
*empty* sequence on resize, with no synthetic placeholder entries on the
next tick.  After `redraw_windows` each history is the two-entry
placeholder `[0, 0]`, and the next tick on this 38-column pane (capacity
`38 - 16 = 22`, so no eviction yet) starts its history with the two
synthetic zeros: `[0, 0, 50]`, not `[50]`. -/
theorem c3_reset_counterexample :
    redraw_windows_vals [⟨37, 38, 0, 0⟩] = [[0, 0]] ∧
    tickUpdate ⟨1, redraw_windows_vals [⟨37, 38, 0, 0⟩], [⟨100, 0⟩], [⟨37, 38, 0, 0⟩]⟩
      [⟨1/2, 100, 10, "A"⟩] =
      Except.ok ⟨1, [[0, 0, 50]], [⟨100, 10⟩], [⟨37, 38, 0, 0⟩]⟩ :=
  ⟨by with_unfolding_all decide, by with_unfolding_all decide⟩

/-- C3 amended: When geometry changes, `redraw_windows` resets
every pane's rolling history to the two-entry placeholder `[0, 0]` (two
synthetic zero samples), not to the empty sequence.  On the next
successful tick, pane `j`'s history is the appended `[0, 0, v_j]`
trimmed by `draw_utilization_plot`'s in-tick FIFO eviction to the
pane's capacity `ncols - 16`: `[0, v_j]` when `ncols ≤ 18` (one
placeholder evicted, e.g. minimum-width panes), `[0, 0, v_j]` when
`ncols ≥ 19`.  Either way synthetic placeholder entries — not an empty
or placeholder-free history — are present on the next tick. -/
theorem c3_reset_placeholders (sizes : List Pane) (mems : List MemInfo)
    (gpus : List GpuSample) (st' : SessionState)
    (hm : mems.length = sizes.length) (hg : gpus.length = sizes.length)
    (hok : tickUpdate ⟨sizes.length, redraw_windows_vals sizes, mems, sizes⟩ gpus =
      Except.ok st') :
    ∀ j, j < sizes.length →
      st'.val_utilizations[j]? = (gpus[j]?).bind (fun g =>
        (sizes[j]?).map (fun size =>
          if size.ncols - 16 < 3 then [0, g.load * 100] else [0, 0, g.load * 100])) := by
  have hlen : (redraw_windows_vals sizes).length = sizes.length := by
    simp [redraw_windows_vals]
  obtain ⟨st'', hrun, _, _, _, _, hvals, _⟩ :=
    tickGo_range' gpus sizes.length 0
      ⟨sizes.length, redraw_windows_vals sizes, mems, sizes⟩
      (by omega) (by simpa [hlen]) (by simpa [hm]) (by simp)
  unfold tickUpdate at hok
  rw [List.range_eq_range'] at hok
  simp only at hok hrun
  rw [hok] at hrun
  have hst : st' = st'' := by
    cases hrun
    rfl
  subst hst
  intro j hj
  have h1 := hvals j
  rw [if_pos (by omega)] at h1
  have h2 : (redraw_windows_vals sizes)[j]? = some [0, 0] := by
    unfold redraw_windows_vals
    rw [List.getElem?_map, List.getElem?_eq_getElem hj]
    rfl
  simp only [h2] at h1
  rw [h1]
  cases gpus[j]? with
  | none => rfl
  | some g =>
    cases hsj : sizes[j]? with
    | none => rfl
    | some size => simp [draw_utilization_pop]

theorem c3_reset_placeholders_witness :
    ([⟨100, 0⟩, ⟨100, 0⟩] : List MemInfo).length =
      ([⟨37, 38, 0, 0⟩, ⟨10, 18, 0, 39⟩] : List Pane).length ∧
    (⟨2, [[0, 0, 50], [0, 60]], [⟨100, 10⟩, ⟨100, 20⟩],
        [⟨37, 38, 0, 0⟩, ⟨10, 18, 0, 39⟩]⟩ : SessionState).val_utilizations[0]? =
      some [0, 0, 50] ∧
    (⟨2, [[0, 0, 50], [0, 60]], [⟨100, 10⟩, ⟨100, 20⟩],
        [⟨37, 38, 0, 0⟩, ⟨10, 18, 0, 39⟩]⟩ : SessionState).val_utilizations[1]? =
      some [0, 60] :=
  ⟨by decide,
   (c3_reset_placeholders [⟨37, 38, 0, 0⟩, ⟨10, 18, 0, 39⟩] [⟨100, 0⟩, ⟨100, 0⟩]
     [⟨1/2, 100, 10, "A"⟩, ⟨3/5, 100, 20, "B"⟩]
     ⟨2, [[0, 0, 50], [0, 60]], [⟨100, 10⟩, ⟨100, 20⟩],
       [⟨37, 38, 0, 0⟩, ⟨10, 18, 0, 39⟩]⟩ (by decide) (by decide)
     (by with_unfolding_all decide) 0 (by decide)).trans
       (by with_unfolding_all decide),
   (c3_reset_placeholders [⟨37, 38, 0, 0⟩, ⟨10, 18, 0, 39⟩] [⟨100, 0⟩, ⟨100, 0⟩]
     [⟨1/2, 100, 10, "A"⟩, ⟨3/5, 100, 20, "B"⟩]
     ⟨2, [[0, 0, 50], [0, 60]], [⟨100, 10⟩, ⟨100, 20⟩],
       [⟨37, 38, 0, 0⟩, ⟨10, 18, 0, 39⟩]⟩ (by decide) (by decide)
     (by with_unfolding_all decide) 1 (by decide)).trans
       (by with_unfolding_all decide)⟩

/-- C5 counterexample: The claim (with the spec's `usableHeight =
h - 1`, the value that makes its own 50/100 example match the code)
says the bar always contains exactly `blocks = floor(used/total ×
(2×usableHeight))` half-block units.  At `used = total = 100`, `h = 10`
the formula gives `blocks = 18`, i.e. 9 full rows — but the column only
has `h - 2 = 8` drawable rows, so the loop runs out of rows and draws
only 16 half-units. -/
theorem c5_usagebar_counterexample :
    draw_memory_chart 100 100 10 5 = Except.ok (List.replicate 8 BarCell.full) ∧
    halfUnits (List.replicate 8 BarCell.full) = 16 ∧
    (⌊(100 : ℚ) / 100 * ((10 : ℚ) + (10 : ℚ) - 2)⌋ : ℤ) = 18 :=
  ⟨by with_unfolding_all decide, by decide, by with_unfolding_all decide⟩

/-- C5 amended: For `used > 0`, `total > 0`, a window of at least
two rows, and `blocks = floor(used/total × (h + h - 2))` small enough to
fit the `h - 2` drawable rows (`blocks ≤ 2(h-2)`), the bar is drawn
bottom-up as exactly `floor(blocks/2)` full-block rows, then one
half-block row iff `blocks` is odd, with all remaining usable rows
blank. -/
theorem c5_usagebar_fill (gpu_usage gpu_total : ℚ) (h w : ℕ)
    (hu : 0 < gpu_usage) (ht : 0 < gpu_total) (hh : 2 ≤ h)
    (hfit : (⌊gpu_usage / gpu_total * ((h : ℚ) + (h : ℚ) - 2)⌋).toNat ≤ 2 * (h - 2)) :
    draw_memory_chart gpu_usage gpu_total h w = Except.ok (
      List.replicate ((⌊gpu_usage / gpu_total * ((h : ℚ) + (h : ℚ) - 2)⌋.fdiv 2).toNat)
        BarCell.full ++
      (if ⌊gpu_usage / gpu_total * ((h : ℚ) + (h : ℚ) - 2)⌋.emod 2 = 0 then []
        else [BarCell.half]) ++
      List.replicate (h - 2 -
          (⌊gpu_usage / gpu_total * ((h : ℚ) + (h : ℚ) - 2)⌋.fdiv 2).toNat -
          (if ⌊gpu_usage / gpu_total * ((h : ℚ) + (h : ℚ) - 2)⌋.emod 2 = 0 then 0 else 1))
        BarCell.blank) := by
  have hbpos : (0 : ℚ) ≤ gpu_usage / gpu_total * ((h : ℚ) + (h : ℚ) - 2) := by
    apply mul_nonneg (le_of_lt (div_pos hu ht))
    have h2 : (2 : ℚ) ≤ (h : ℚ) := by exact_mod_cast hh
    linarith
  set b : ℤ := ⌊gpu_usage / gpu_total * ((h : ℚ) + (h : ℚ) - 2)⌋ with hbdef
  have hb0 : 0 ≤ b := Int.floor_nonneg.mpr hbpos
  have hfd : b.fdiv 2 = b / 2 := Int.fdiv_eq_ediv b (by norm_num)
  have hem : b.emod 2 = b % 2 := rfl
  unfold draw_memory_chart
  rw [if_neg (ne_of_gt ht)]
  have husage : decide (gpu_usage = 0) = false := decide_eq_false (ne_of_gt hu)
  rw [husage]
  change Except.ok (barRows (h - 2) (b.fdiv 2) (decide (¬ b.emod 2 = 0)) false) = _
  have hpair := Int.ediv_add_emod b 2
  rw [barRows_spec (h - 2) (b.fdiv 2) (decide (¬ b.emod 2 = 0))
    (by rw [hfd]; exact Int.ediv_nonneg hb0 (by norm_num))
    (by rcases Int.emod_two_eq_zero_or_one b with hp | hp
        · have hd : decide (¬ b.emod 2 = 0) = false := by simp [hem, hp]
          rw [hd, hfd]
          simp only [Bool.false_eq_true, if_false]
          omega
        · have hd : decide (¬ b.emod 2 = 0) = true := by simp [hem, hp]
          rw [hd, hfd]
          simp only [if_true]
          omega)]
  rcases Int.emod_two_eq_zero_or_one b with hp | hp
  · have hd : decide (¬ b.emod 2 = 0) = false := by simp [hem, hp]
    have hp' : b.emod 2 = 0 := by rw [hem]; exact hp
    rw [hd]
    simp [hp']
  · have hd : decide (¬ b.emod 2 = 0) = true := by simp [hem, hp]
    have hp' : ¬ b.emod 2 = 0 := by rw [hem, hp]; norm_num
    rw [hd]
    simp [hp']

theorem c5_usagebar_fill_witness :
    (0 : ℚ) < 50 ∧ (0 : ℚ) < 100 ∧
    draw_memory_chart 50 100 10 5 = Except.ok
      (List.replicate 4 BarCell.full ++ [BarCell.half] ++ List.replicate 3 BarCell.blank) :=
  ⟨by norm_num, by norm_num,
   (c5_usagebar_fill 50 100 10 5 (by norm_num) (by norm_num) (by norm_num)
     (by with_unfolding_all decide)).trans (by with_unfolding_all decide)⟩

theorem except_bind_ok2 {ε α β : Type} {x : Except ε α} {f : α → Except ε β} {b : β} :
    x.bind f = Except.ok b ↔ ∃ a, x = Except.ok a ∧ f a = Except.ok b := by
  cases x <;> simp [Except.bind]

/-- C8 counterexample: With valid supplied bounds and the default
label format, the claim's "all of equal length" fails: a `minimum` whose
rendering is wider than the default width (sized to `maximum`) makes the
bottom row longer than the top one — 12 characters against 7 here. -/
theorem c8_equal_length_counterexample :
    (plot_line_chart [0, 100] 2 (some (-1000000)) (some 100) none).map allSameLength =
      Except.ok false ∧
    (plot_line_chart [0, 100] 2 (some (-1000000)) (some 100) none).map
      (List.map String.length) = Except.ok [7, 12] :=
  ⟨by with_unfolding_all decide, by with_unfolding_all decide⟩

/-- C8 amended: Whenever `plot_line_chart` on a non-empty series
returns at all — for any combination of supplied or default bounds and
format — it returns exactly `height` strings, and, being a pure
function of its arguments, re-invocation with the same arguments is
definitionally identical (both conjuncts unconditional).  The strings
additionally all share one common length provided every axis label
renders at the resolved format's width (the nested hypothesis);
the counterexample shows equal length can fail without that proviso
(a `minimum` rendering wider than the default width sized to
`maximum`). -/
theorem c8_render_shape (x : ℚ) (xs : List ℚ) (height : ℕ)
    (minimum? maximum? : Option ℚ) (fmt? : Option Fmt) (out : List String)
    (hok : plot_line_chart (x :: xs) height minimum? maximum? fmt? = Except.ok out) :
    out.length = height ∧
    plot_line_chart (x :: xs) height minimum? maximum? fmt? =
      plot_line_chart (x :: xs) height minimum? maximum? fmt? ∧
    ((∀ k, k < height →
        (pyFmtF
            (fmt?.getD { width := (toString (maximum?.getD (xs.foldl max x)).num).length,
                         suffix := " " })
            (maximum?.getD (xs.foldl max x) -
              |maximum?.getD (xs.foldl max x) - minimum?.getD (xs.foldl min x)| /
                ((height : ℚ) - 1) * (k : ℚ))).length =
          (fmt?.getD { width := (toString (maximum?.getD (xs.foldl max x)).num).length,
                       suffix := " " }).width +
          (fmt?.getD { width := (toString (maximum?.getD (xs.foldl max x)).num).length,
                       suffix := " " }).suffix.length) →
      allSameLength out = true) := by
  simp only [plot_line_chart] at hok
  split at hok
  · exact absurd hok (by simp)
  · split at hok
    · exact absurd hok (by simp)
    · split at hok
      · exact absurd hok (by simp)
      · obtain ⟨labels, hlab, hok2⟩ := except_bind_ok2.mp hok
        obtain ⟨plots, hplots, hok3⟩ := except_bind_ok2.mp hok2
        have hout : out = List.zipWith (fun label plot => label ++ String.mk plot)
            labels plots := by
          cases hok3
          rfl
        have hlen := chartLabels_length hlab
        have hsh := chartPlots_shape hplots
        refine ⟨?_, rfl, ?_⟩
        · rw [hout, List.length_zipWith, hlen, hsh.1]
          simp
        · intro hW
          have hconst : ∀ s ∈ out, s.length =
              (fmt?.getD { width := (toString (maximum?.getD (xs.foldl max x)).num).length,
                           suffix := " " }).width +
              (fmt?.getD { width := (toString (maximum?.getD (xs.foldl max x)).num).length,
                           suffix := " " }).suffix.length + 1 + (x :: xs).length := by
            intro s hs
            rw [hout] at hs
            obtain ⟨l, hl, p, hp, hseq⟩ := zipWith_mem _ _ _ s hs
            obtain ⟨y, hy, hllen⟩ := chartLabels_mem hlab l hl
            have hplen := hsh.2 p hp
            subst hseq
            rw [String.length_append]
            have hmk : (String.mk p).length = p.length := rfl
            rw [hmk, hplen, hllen, hW y hy]
          exact allSameLength_of_const hconst

theorem c8_render_shape_witness :
    (plot_line_chart [0, 100] 2 (some 0) (some 100) (some ⟨3, " "⟩)).map
      (fun out => (out.length, allSameLength out)) = Except.ok (2, true) := by
  cases hres : plot_line_chart [0, 100] 2 (some 0) (some 100) (some ⟨3, " "⟩) with
  | error e =>
    exfalso
    have hbad : (plot_line_chart [0, 100] 2 (some 0) (some 100) (some ⟨3, " "⟩)).isOk =
        true := by with_unfolding_all decide
    rw [hres] at hbad
    cases hbad
  | ok out =>
    have h := c8_render_shape 0 [100] 2 (some 0) (some 100) (some ⟨3, " "⟩) out hres
    have hall := h.2.2 (by
      intro k hk
      interval_cases k <;> with_unfolding_all decide)
    simp [Except.map, h.1, hall]

/-- The panes of one grid line touch or are separated: a pane at cell
index `a` in its line ends at or before the start of the pane at cell
index `b > a` (both sharing pane edge `d`, padded by one cell only when
the index is positive). -/
theorem paneSep (a b d : ℕ) (hab : a < b) :
    a * d + (if 0 < a then 1 else 0) + d ≤ b * d + (if 0 < b then 1 else 0) := by
  rw [if_pos (by omega : 0 < b)]
  have h1 : (a + 1) * d ≤ b * d := Nat.mul_le_mul_right d (by omega)
  have h3 : (a + 1) * d = a * d + d := by ring
  have h4 : (if 0 < a then 1 else 0) ≤ 1 := by split <;> omega
  omega

/-- A pane at cell index `c` of a line of `C` cells of edge `W`
(`W + 1 = d`, the unreduced cut `d = dim / C`, and `C * d ≤ T`) ends
within the `T`-wide strip. -/
theorem paneBoundAux (c C d W T : ℕ) (hc : c < C)
    (hWd : W + 1 = d) (hcd : C * d ≤ T) :
    c * W + (if 0 < c then 1 else 0) + W ≤ T := by
  have h1 : (c + 1) * W ≤ C * W := Nat.mul_le_mul_right W (by omega)
  have h2 : C * W + C ≤ T := by
    calc C * W + C = C * (W + 1) := by ring
    _ = C * d := by rw [hWd]
    _ ≤ T := hcd
  have h3 : (c + 1) * W = c * W + W := by ring
  have h4 : (if 0 < c then 1 else 0) ≤ 1 := by split <;> omega
  have h5 : 0 < C := by omega
  omega

/-- C10 counterexample: The claim says adjacent panes are
separated by the one-cell interior pad.  In the feasible 40×160 / 4-pane
layout, pane 1 (`begin_x = 39`, `ncols = 38`) ends exactly where pane 2
begins (`39 + 38 = 77`): only the boundary after the *first* column gets
a separating cell, later neighbours touch with no pad between them. -/
theorem c10_pad_counterexample :
    calculate_sizes 40 160 4 = some (LayoutResult.panes
      [⟨37, 38, 0, 0⟩, ⟨37, 38, 0, 39⟩, ⟨37, 38, 0, 77⟩, ⟨37, 38, 0, 115⟩]) ∧
    (39 + 38 = 77) :=
  ⟨by decide, by decide⟩

/-- C10 amended: For every feasible plan, the pane rectangles are
pairwise disjoint, lie within the terminal, all share the same `nlines`
(≥ 10) and `ncols` (≥ 18), and are laid out row-major by GPU index with
a one-cell offset applied once to every index past the first row /
first column (so only the second row and second column are preceded by a
separating cell; further neighbours touch edge-to-edge). -/
theorem c10_layout_invariants (lines cols n : ℕ) (ps : List Pane)
    (hres : calculate_sizes lines cols n = some (LayoutResult.panes ps)) :
    ps.length = n ∧
    (∀ p ∈ ps, 10 ≤ p.nlines ∧ 18 ≤ p.ncols ∧
      p.begin_x + p.ncols ≤ cols ∧ p.begin_y + p.nlines ≤ lines) ∧
    (∀ p ∈ ps, ∀ q ∈ ps, p.nlines = q.nlines ∧ p.ncols = q.ncols) ∧
    (∃ columns, 0 < columns ∧ ∀ i (hi : i < ps.length),
      (ps.get ⟨i, hi⟩).begin_x = (i % columns) * (ps.get ⟨i, hi⟩).ncols +
        (if 0 < i % columns then 1 else 0) ∧
      (ps.get ⟨i, hi⟩).begin_y = (i / columns) * (ps.get ⟨i, hi⟩).nlines +
        (if 0 < i / columns then 1 else 0)) ∧
    (∀ i j (hi : i < ps.length) (hj : j < ps.length), i ≠ j →
      paneDisjoint (ps.get ⟨i, hi⟩) (ps.get ⟨j, hj⟩)) := by
  simp only [calculate_sizes] at hres
  cases hg : gridLoop n (lines - 2) (cols - 1) (n + 1) 1 1 with
  | none =>
    rw [hg] at hres
    exact absurd hres (by simp)
  | some rc =>
    obtain ⟨rows, columns⟩ := rc
    rw [hg] at hres
    obtain ⟨hR, hC, hn⟩ :=
      gridLoop_spec n (lines - 2) (cols - 1) (n + 1) 1 1 rows columns one_pos one_pos hg
    simp only at hres
    split at hres
    · exact absurd hres (by simp)
    · rename_i hfeas
      push_neg at hfeas
      obtain ⟨hw18, hh10⟩ := hfeas
      simp only [Option.some.injEq, LayoutResult.panes.injEq] at hres
      subst hres
      set dW : ℕ := (cols - 1) / columns with hdW
      set dH : ℕ := (lines - 2) / rows with hdH
      set width : ℕ := dW - 1 with hwidth
      set height : ℕ := dH - 1 with hheight
      have hw18' : 18 ≤ width := by omega
      have hh10' : 10 ≤ height := by omega
      have hWd : width + 1 = dW := by omega
      have hHd : height + 1 = dH := by omega
      have hcd : columns * dW ≤ cols - 1 := by
        rw [hdW, Nat.mul_comm]
        exact Nat.div_mul_le_self (cols - 1) columns
      have hrd : rows * dH ≤ lines - 2 := by
        rw [hdH, Nat.mul_comm]
        exact Nat.div_mul_le_self (lines - 2) rows
      have hget : ∀ i (hi : i < ((List.range n).map (fun i =>
          ({ nlines := height, ncols := width,
             begin_y := i / columns * height + (if 0 < i / columns then 1 else 0),
             begin_x := i % columns * width + (if 0 < i % columns then 1 else 0) } :
            Pane))).length),
          ((List.range n).map _).get ⟨i, hi⟩ =
            ({ nlines := height, ncols := width,
               begin_y := i / columns * height + (if 0 < i / columns then 1 else 0),
               begin_x := i % columns * width + (if 0 < i % columns then 1 else 0) } :
              Pane) := by
        intro i hi
        rw [List.get_eq_getElem, List.getElem_map, List.getElem_range]
      have hmem : ∀ p, p ∈ ((List.range n).map (fun i =>
          ({ nlines := height, ncols := width,
             begin_y := i / columns * height + (if 0 < i / columns then 1 else 0),
             begin_x := i % columns * width + (if 0 < i % columns then 1 else 0) } :
            Pane))) → ∃ i, i < n ∧ p =
            ({ nlines := height, ncols := width,
               begin_y := i / columns * height + (if 0 < i / columns then 1 else 0),
               begin_x := i % columns * width + (if 0 < i % columns then 1 else 0) } :
              Pane) := by
        intro p hp
        obtain ⟨i, hi, hpi⟩ := List.mem_map.mp hp
        exact ⟨i, List.mem_range.mp hi, hpi.symm⟩
      refine ⟨by simp, ?_, ?_, ?_, ?_⟩
      · intro p hp
        obtain ⟨i, hi, hpi⟩ := hmem p hp
        subst hpi
        refine ⟨hh10', hw18', ?_, ?_⟩
        · have hcol : i % columns < columns := Nat.mod_lt i hC
          have := paneBoundAux (i % columns) columns dW width (cols - 1) hcol hWd hcd
          simp only
          omega
        · have hrow : i / columns < rows :=
            (Nat.div_lt_iff_lt_mul hC).mpr (by omega)
          have := paneBoundAux (i / columns) rows dH height (lines - 2) hrow hHd hrd
          simp only
          omega
      · intro p hp q hq
        obtain ⟨i, hi, hpi⟩ := hmem p hp
        obtain ⟨j, hj, hpj⟩ := hmem q hq
        subst hpi
        subst hpj
        exact ⟨rfl, rfl⟩
      · refine ⟨columns, hC, ?_⟩
        intro i hi
        rw [hget i hi]
        exact ⟨rfl, rfl⟩
      · intro i j hi hj hij
        rw [hget i hi, hget j hj]
        have hiN : i < n := by simpa using hi
        have hjN : j < n := by simpa using hj
        rcases Nat.lt_trichotomy (i % columns) (j % columns) with hcol | hcol | hcol
        · exact Or.inl (paneSep (i % columns) (j % columns) width hcol)
        · rcases Nat.lt_trichotomy (i / columns) (j / columns) with hrow | hrow | hrow
          · exact Or.inr (Or.inr (Or.inl (paneSep (i / columns) (j / columns) height hrow)))
          · exfalso
            have hdm1 := Nat.div_add_mod i columns
            have hdm2 := Nat.div_add_mod j columns
            rw [hcol, hrow] at hdm1
            omega
          · exact Or.inr (Or.inr (Or.inr (paneSep (j / columns) (i / columns) height hrow)))
        · exact Or.inr (Or.inl (paneSep (j % columns) (i % columns) width hcol))

theorem c10_layout_invariants_witness :
    calculate_sizes 40 160 4 = some (LayoutResult.panes
      [⟨37, 38, 0, 0⟩, ⟨37, 38, 0, 39⟩, ⟨37, 38, 0, 77⟩, ⟨37, 38, 0, 115⟩]) ∧
    paneDisjoint ⟨37, 38, 0, 39⟩ ⟨37, 38, 0, 77⟩ := by
  have hres : calculate_sizes 40 160 4 = some (LayoutResult.panes
      [⟨37, 38, 0, 0⟩, ⟨37, 38, 0, 39⟩, ⟨37, 38, 0, 77⟩, ⟨37, 38, 0, 115⟩]) := by decide
  have h := c10_layout_invariants 40 160 4
    [⟨37, 38, 0, 0⟩, ⟨37, 38, 0, 39⟩, ⟨37, 38, 0, 77⟩, ⟨37, 38, 0, 115⟩] hres
  exact ⟨hres, h.2.2.2.2 1 2 (by decide) (by decide) (by decide)⟩
